import Mathlib

/-!
Shallow embedding of the homebridge-qingping-air-monitor plugin core:
the Qingping cloud client (token lifecycle, device-list cache), the
air-quality classifier, the sensor value resolvers, and the platform's
accessory reconciliation (`discoverDevices`).  Sensor values (JS numbers)
are modelled as rationals; JS objects with optional keys are modelled as
association lists; fallible reads return `Except`.
-/

namespace Qingping

/-- The keys of the per-device sensor reading record (`DeviceDataKey` in
`src/qingping/client.ts`). -/
inductive DeviceDataKey where
  | timestamp
  | battery
  | temperature
  | humidity
  | tvoc
  | co2
  | pm25
deriving DecidableEq, Repr

/-- `DeviceData = Record<DeviceDataKey, { value: number }>` where a key may be
absent on a given device: an association list from key to numeric value. -/
abbrev DeviceData := List (DeviceDataKey × Rat)

/-- Presence-aware lookup: `data[key]?.value` / `key in data` combined.
Returns the first binding of the key, if any. -/
def dataVal (data : DeviceData) (k : DeviceDataKey) : Option Rat :=
  (data.find? (fun p => p.1 == k)).map (fun p => p.2)

/-- `DeviceInfo.product` (`src/qingping/client.ts`): only the fields the
modelled code inspects. -/
structure DeviceProduct where
  id : Int
  en_name : String
deriving DecidableEq, Repr

/-- `DeviceInfo` (`src/qingping/client.ts`): mac is the stable identity. -/
structure DeviceInfo where
  mac : String
  product : DeviceProduct
deriving DecidableEq, Repr

/-- `Device` (`src/qingping/client.ts`). -/
structure Device where
  info : DeviceInfo
  data : DeviceData
deriving DecidableEq, Repr

/-- `DeviceProductId.AirMonitor = 1201` (`src/qingping/client.ts`). -/
def AirMonitorProductId : Int := 1201

/-- The filter applied in `discoverDevices`:
`Object.values(QingpingDeviceProductId).includes(device?.info?.product?.id)`;
for the numeric product ids this holds exactly for the AirMonitor id. -/
def supportedProduct (d : Device) : Bool :=
  d.info.product.id == AirMonitorProductId

/-! ### Air-quality classifier (`getAirQuality`, `src/platform-accessory.ts`) -/

/-- The HomeKit `Characteristic.AirQuality` enum values returned by
`getAirQuality`. -/
inductive AirQuality where
  | unknown
  | excellent
  | good
  | fair
  | inferior
  | poor
deriving DecidableEq, Repr

/-- One rule's condition: either an `under` or an `over` threshold map
(`AirQualityLevelCondition`), kept as the entry list of the object literal. -/
inductive AqCondition where
  | under (cond : List (DeviceDataKey × Rat))
  | over (cond : List (DeviceDataKey × Rat))
deriving DecidableEq, Repr

/-- `AirQualityLevel` (`src/platform-accessory.ts`): a condition plus the
resulting air-quality value. -/
structure AirQualityLevel where
  cond : AqCondition
  airQuality : AirQuality
deriving DecidableEq, Repr

/-- The `levels` rule table of `getAirQuality`, in source order. -/
def airQualityLevels : List AirQualityLevel :=
  [ { cond := .under [(.pm25, 12), (.tvoc, 65), (.co2, 1000)],
      airQuality := .excellent },
    { cond := .under [(.pm25, 35), (.tvoc, 220), (.co2, 1250)],
      airQuality := .good },
    { cond := .under [(.pm25, 55), (.tvoc, 660), (.co2, 1500)],
      airQuality := .fair },
    { cond := .under [(.pm25, 150), (.tvoc, 2000), (.co2, 2000)],
      airQuality := .inferior },
    { cond := .over [(.pm25, 150), (.tvoc, 2000), (.co2, 2000)],
      airQuality := .poor } ]

/-- One sub-condition test of `getAirQuality`:
`dataKey in this.data && this.data[dataKey].value < targetValue` (resp. `>`). -/
def entryMatches (data : DeviceData) (isUnder : Bool)
    (p : DeviceDataKey × Rat) : Bool :=
  match dataVal data p.1 with
  | some v => if isUnder then decide (v < p.2) else decide (v > p.2)
  | none => false

/-- A whole rule matches when every entry of its condition matches
(`matches.every((x) => x)` over `Object.entries(condition)`). -/
def conditionMatches (data : DeviceData) (c : AqCondition) : Bool :=
  match c with
  | .under cond => cond.all (entryMatches data true)
  | .over cond => cond.all (entryMatches data false)

/-- `getAirQuality` (`src/platform-accessory.ts`): first matching rule in
list order wins; `UNKNOWN` when none matches. -/
def getAirQuality (data : DeviceData) : AirQuality :=
  match airQualityLevels.find? (fun l => conditionMatches data l.cond) with
  | some l => l.airQuality
  | none => .unknown

/-- Reference classifier written from the spec text of section 4.4: a rule
matches iff every kind named in its condition is present in the readings and
its value compares strictly against the threshold; the five rules are tried
in the fixed order with the fixed thresholds; no match yields Unknown. -/
def specRuleMatches (r : DeviceData) (isUnder : Bool)
    (cond : List (DeviceDataKey × Rat)) : Bool :=
  cond.all fun p =>
    (dataVal r p.1).isSome &&
    (if isUnder then decide ((dataVal r p.1).getD 0 < p.2)
     else decide (p.2 < (dataVal r p.1).getD 0))

/-- Reference classifier from the spec's rule table (section 4.4). -/
def classifySpec (r : DeviceData) : AirQuality :=
  if specRuleMatches r true [(.pm25, 12), (.tvoc, 65), (.co2, 1000)] then
    .excellent
  else if specRuleMatches r true [(.pm25, 35), (.tvoc, 220), (.co2, 1250)] then
    .good
  else if specRuleMatches r true [(.pm25, 55), (.tvoc, 660), (.co2, 1500)] then
    .fair
  else if specRuleMatches r true [(.pm25, 150), (.tvoc, 2000), (.co2, 2000)] then
    .inferior
  else if specRuleMatches r false [(.pm25, 150), (.tvoc, 2000), (.co2, 2000)] then
    .poor
  else
    .unknown

/-! ### Sensor value resolvers (`src/platform-accessory.ts`) -/

/-- The single error produced by `onCharacteristicGetValue`
(`new Error(...)` for an undefined characteristic value). -/
inductive MissingReadingError where
  | missing
deriving DecidableEq, Repr

/-- `onCharacteristicGetValue` (`src/platform-accessory.ts`): reads
`this.data[field]?.value` and errors on any JS-falsy result (absent key or
value `0`); otherwise yields the value. -/
def onCharacteristicGetValue (data : DeviceData) (field : DeviceDataKey) :
    Except MissingReadingError Rat :=
  match dataVal data field with
  | some v => if v = 0 then .error .missing else .ok v
  | none => .error .missing

/-- The VOC density `get` handler (`src/platform-accessory.ts`): multiplies
the raw tvoc value by 3.19 when `config.tvocUnit` is the string `ppb`,
otherwise returns it unchanged. -/
def resolveVocDensity (tvocUnit : Option String) (tvoc : Rat) : Rat :=
  if tvocUnit == some ("ppb") then tvoc * 3.19 else tvoc

/-- The HomeKit `Characteristic.StatusLowBattery` values. -/
inductive BatteryStatus where
  | normal
  | low
deriving DecidableEq, Repr

/-- The battery `get` handler (`src/platform-accessory.ts`): normal when the
battery percentage is strictly above 20, low otherwise. -/
def batteryStatusRead (battery : Rat) : BatteryStatus :=
  if battery > 20 then .normal else .low

/-- The HomeKit `Characteristic.CarbonDioxideDetected` values. -/
inductive Co2Detected where
  | normal
  | abnormal
deriving DecidableEq, Repr

/-- The `CarbonDioxideDetected` `get` handler (`src/platform-accessory.ts`):
abnormal when the co2 value is strictly above 2000, normal otherwise. -/
def carbonDioxideDetectedRead (co2 : Rat) : Co2Detected :=
  if co2 > 2000 then .abnormal else .normal

/-! ### Cloud client (`Client`, `src/qingping/client.ts`) -/

/-- `OauthAccess` (`src/qingping/client.ts`): only the fields the modelled
code inspects.  `expires_in` is in seconds. -/
structure OauthAccess where
  access_token : String
  expires_in : Int
deriving DecidableEq, Repr

/-- The mutable state of `Client`: `accessUpdatedAt` (epoch ms, initially -1),
the optional cached `access` credential, and the cached `devices` list. -/
structure ClientState where
  accessUpdatedAt : Int := -1
  access : Option OauthAccess := none
  devices : List Device := []
deriving DecidableEq, Repr

/-- The guard at the top of `updateDevices` (`src/qingping/client.ts`):
`!this.access || this.accessUpdatedAt + this.access.expires_in * 1000 > Date.now()`;
when it holds, `refreshToken()` is awaited before the device fetch. -/
def shouldRefreshToken (st : ClientState) (now : Int) : Bool :=
  match st.access with
  | none => true
  | some a => decide (st.accessUpdatedAt + a.expires_in * 1000 > now)

/-- The state change applied by a successful `refreshToken()`: the credential
is replaced wholesale and `accessUpdatedAt` is set to the time of response
receipt (`Date.now()`). -/
def refreshTokenApply (st : ClientState) (now : Int) (body : OauthAccess) :
    ClientState :=
  { st with accessUpdatedAt := now, access := some body }

/-- Modelled from the spec (section 3, Credential): the derived
`refreshDeadline = issuedAt + expiresInSeconds * 0.99`, expressed in epoch
milliseconds (so the factor is 990 ms per second of lifetime).  The source
has no such working definition; its `refreshBefore` getter is unused. -/
def refreshDeadlineSpec (issuedAt expiresInSeconds : Int) : Int :=
  issuedAt + expiresInSeconds * 990

/-- The parsed `devices` field of a device-listing response body: either a
proper JSON array of devices or anything else (absent, null, non-array). -/
inductive DevicesField where
  | arr (devices : List Device)
  | notArr
deriving DecidableEq, Repr

/-- `GetDevicesResponse` body as far as `updateDevices` inspects it. -/
structure GetDevicesResponseBody where
  devices : DevicesField
deriving DecidableEq, Repr

/-- The cache step at the end of `updateDevices` (`src/qingping/client.ts`):
`if (Array.isArray(response.body.devices)) { this.devices = response.body.devices; }`. -/
def updateDevicesCache (prev : List Device) (body : GetDevicesResponseBody) :
    List Device :=
  match body.devices with
  | .arr ds => ds
  | .notArr => prev

/-! ### Platform reconciliation (`discoverDevices`, `src/platform.ts`) -/

/-- Models `this.api.hap.uuid.generate(mac)`: a pure, deterministic, injective
derivation of the accessory id from the mac address; in the model the mac
string itself serves as the id. -/
def generateUUID (mac : String) : String := mac

/-- A platform accessory as the reconciler sees it: its UUID and the device
snapshot stored in `accessory.context.device`. -/
structure Accessory where
  uuid : String
  device : Device
deriving DecidableEq, Repr

/-- The platform's accessory-related state: the `this.accessories` array and
the set (as a list) of accessory UUIDs currently registered with the bridge. -/
structure PlatformState where
  accessories : List Accessory
  registered : List String
deriving DecidableEq, Repr

/-- Intermediate state of the per-device loop in `discoverDevices`:
`this.accessories`, the bridge-registered UUIDs, and the
`discoveredAccessories` UUID list built during the loop. -/
structure DiscoverState where
  accessories : List Accessory
  registered : List String
  discovered : List String
deriving DecidableEq, Repr

/-- `this.accessories.find((accessory) => accessory.UUID === uuid)` is
defined: some accessory has the given UUID. -/
def anyUuid (accs : List Accessory) (u : String) : Bool :=
  accs.any (fun a => a.uuid == u)

/-- `existingAccessory.context.device = device`: rebind the device snapshot
of the first accessory carrying the given UUID. -/
def updateFirst (accs : List Accessory) (u : String) (d : Device) :
    List Accessory :=
  match accs with
  | [] => []
  | a :: rest =>
    if a.uuid == u then { a with device := d } :: rest
    else a :: updateFirst rest u d

/-- One iteration of the `for (const device of availableDevices)` loop of
`discoverDevices`: push the UUID to `discoveredAccessories`; if an accessory
with that UUID exists, rebind its device; otherwise create the accessory,
register it with the bridge and push it to `this.accessories`. -/
def processDevice (s : DiscoverState) (d : Device) : DiscoverState :=
  let u := generateUUID d.info.mac
  if anyUuid s.accessories u then
    { accessories := updateFirst s.accessories u d,
      registered := s.registered,
      discovered := s.discovered ++ [u] }
  else
    { accessories := s.accessories ++ [⟨u, d⟩],
      registered := s.registered ++ [u],
      discovered := s.discovered ++ [u] }

/-- The trailing loop of `discoverDevices`: every accessory of
`this.accessories` whose UUID was not discovered this cycle is unregistered
from the bridge (it is not removed from `this.accessories`). -/
def unregisterPass (accs : List Accessory) (discovered : List String)
    (registered : List String) : List String :=
  accs.foldl
    (fun regd a =>
      if discovered.contains a.uuid then regd
      else regd.filter (fun u => u != a.uuid))
    registered

/-- The reconciliation body of `discoverDevices` (`src/platform.ts`), run
against a device list: filter to supported products, process each device in
response order, then unregister undiscovered accessories. -/
def discoverDevicesRun (st : PlatformState) (devices : List Device) :
    PlatformState :=
  let available := devices.filter supportedProduct
  let s := available.foldl processDevice
    ⟨st.accessories, st.registered, ([] : List String)⟩
  { accessories := s.accessories,
    registered := unregisterPass s.accessories s.discovered s.registered }

/-- The device cache after the `updateDevices` attempt at the top of a sync
cycle: on a thrown request (`none`) the error is caught and logged and the
cache is left intact; on a response the array-guarded swap of
`updateDevicesCache` applies. -/
def clientCacheAfter (cache : List Device)
    (poll : Option GetDevicesResponseBody) : List Device :=
  match poll with
  | none => cache
  | some body => updateDevicesCache cache body

/-- One `discoverDevices` sync cycle (`src/platform.ts`): attempt the device
update (errors caught and logged at this boundary), then reconcile against
whatever the client's device cache now holds. -/
def syncCycle (st : PlatformState) (cache : List Device)
    (poll : Option GetDevicesResponseBody) : PlatformState × List Device :=
  let cache2 := clientCacheAfter cache poll
  (discoverDevicesRun st cache2, cache2)

/-! ### Auxiliary definitions for the reconciliation proofs -/

/-- A concrete supported device used in concrete evaluations. -/
def sampleDevice (mac : String) (data : DeviceData) : Device :=
  ⟨⟨mac, ⟨AirMonitorProductId, "Air Monitor"⟩⟩, data⟩

/-- The accessory id derived for a device. -/
def uuidOf (d : Device) : String := generateUUID d.info.mac

/-- The effect of one loop iteration of `discoverDevices` on the
`this.accessories` array alone. -/
def stepAcc (accs : List Accessory) (d : Device) : List Accessory :=
  if anyUuid accs (uuidOf d) then updateFirst accs (uuidOf d) d
  else accs ++ [⟨uuidOf d, d⟩]

/-- The accessory array after the whole device loop. -/
def foldAcc (ds : List Device) (accs : List Accessory) : List Accessory :=
  ds.foldl stepAcc accs

/-- Re-binding pass: every device updates the first accessory with its id
(no additions); this is what a second run over the same payload does. -/
def updOnly (ds : List Device) (accs : List Accessory) : List Accessory :=
  ds.foldl (fun accs2 d => updateFirst accs2 (uuidOf d) d) accs

/-- A registered UUID survives `unregisterPass` iff no accessory carries it
while being undiscovered. -/
def keepPred (A : List Accessory) (D : List String) (u : String) : Bool :=
  A.all (fun a => D.contains a.uuid || u != a.uuid)

end Qingping

/-! ## Lemmas about the reconciliation loop -/

namespace Qingping

theorem anyUuid_updateFirst (A : List Accessory) (u : String) (d : Device)
    (v : String) : anyUuid (updateFirst A u d) v = anyUuid A v := by
  induction A with
  | nil => rfl
  | cons a A ih =>
    by_cases h : a.uuid == u
    · simp [updateFirst, h, anyUuid, List.any_cons]
    · simp only [updateFirst, h, if_false, anyUuid, List.any_cons,
        Bool.false_eq_true]
      rw [show (updateFirst A u d).any (fun x => x.uuid == v) =
        anyUuid (updateFirst A u d) v from rfl, ih]
      rfl

theorem updateFirst_absent (A : List Accessory) (u : String) (d : Device)
    (h : anyUuid A u = false) : updateFirst A u d = A := by
  induction A with
  | nil => rfl
  | cons a A ih =>
    simp only [anyUuid, List.any_cons, Bool.or_eq_false_iff] at h
    simp [updateFirst, h.1, ih h.2]

theorem updateFirst_updateFirst (A : List Accessory) (u : String)
    (d e : Device) :
    updateFirst (updateFirst A u d) u e = updateFirst A u e := by
  induction A with
  | nil => rfl
  | cons a A ih =>
    by_cases h : a.uuid == u
    · simp [updateFirst, h]
    · simp [updateFirst, h, ih]

theorem updateFirst_comm (A : List Accessory) (u v : String) (d e : Device)
    (huv : u ≠ v) :
    updateFirst (updateFirst A u d) v e =
      updateFirst (updateFirst A v e) u d := by
  induction A with
  | nil => rfl
  | cons a A ih =>
    by_cases hu : a.uuid == u
    · have hv : (a.uuid == v) = false := by
        simp only [beq_iff_eq] at hu
        simp only [beq_eq_false_iff_ne, ne_eq, hu]
        exact huv
      simp [updateFirst, hu, hv]
    · by_cases hv : a.uuid == v
      · simp [updateFirst, hu, hv]
      · simp [updateFirst, hu, hv, ih]

theorem updateFirst_append_singleton (A : List Accessory) (u v : String)
    (d e : Device) (hvu : v ≠ u) :
    updateFirst (A ++ [⟨v, e⟩]) u d = updateFirst A u d ++ [⟨v, e⟩] := by
  induction A with
  | nil =>
    have : ((⟨v, e⟩ : Accessory).uuid == u) = false := by
      simp only [beq_eq_false_iff_ne, ne_eq]
      exact hvu
    simp [updateFirst, this]
  | cons a A ih =>
    by_cases h : a.uuid == u
    · simp [updateFirst, h]
    · simp [updateFirst, h, ih]

theorem updateFirst_append_self (A : List Accessory) (u : String) (d : Device)
    (h : anyUuid A u = false) :
    updateFirst (A ++ [⟨u, d⟩]) u d = A ++ [⟨u, d⟩] := by
  induction A with
  | nil => simp [updateFirst]
  | cons a A ih =>
    simp only [anyUuid, List.any_cons, Bool.or_eq_false_iff] at h
    simp [updateFirst, h.1, ih h.2]

theorem updOnly_updateFirst_mem (ds : List Device) (A : List Accessory)
    (u : String) (d : Device) (h : u ∈ ds.map uuidOf) :
    updOnly ds (updateFirst A u d) = updOnly ds A := by
  induction ds generalizing A with
  | nil => simp at h
  | cons e es ih =>
    simp only [List.map_cons, List.mem_cons] at h
    by_cases hv : uuidOf e = u
    · simp only [updOnly, List.foldl_cons, hv]
      rw [updateFirst_updateFirst]
    · have hmem : u ∈ es.map uuidOf := by
        rcases h with h | h
        · exact absurd h.symm hv
        · exact h
      simp only [updOnly, List.foldl_cons]
      rw [updateFirst_comm A u (uuidOf e) d e (fun hc => hv hc.symm)]
      exact ih (updateFirst A (uuidOf e) e) hmem

theorem foldAcc_updateFirst_not_mem (ds : List Device) (A : List Accessory)
    (u : String) (d : Device) (h : u ∉ ds.map uuidOf) :
    foldAcc ds (updateFirst A u d) = updateFirst (foldAcc ds A) u d := by
  induction ds generalizing A with
  | nil => rfl
  | cons e es ih =>
    simp only [List.map_cons, List.mem_cons, not_or] at h
    obtain ⟨hne, hnot⟩ := h
    simp only [foldAcc, List.foldl_cons]
    rw [show es.foldl stepAcc (stepAcc (updateFirst A u d) e) =
      foldAcc es (stepAcc (updateFirst A u d) e) from rfl]
    rw [show es.foldl stepAcc (stepAcc A e) = foldAcc es (stepAcc A e) from rfl]
    have hstep : stepAcc (updateFirst A u d) e =
        updateFirst (stepAcc A e) u d := by
      unfold stepAcc
      rw [anyUuid_updateFirst]
      cases hA : anyUuid A (uuidOf e) with
      | true =>
        simp only [if_true]
        exact updateFirst_comm A u (uuidOf e) d e hne
      | false =>
        simp only [Bool.false_eq_true, if_false]
        rw [updateFirst_append_singleton A u (uuidOf e) d e
          (fun hc => hne hc.symm)]
    rw [hstep]
    exact ih (stepAcc A e) hnot

theorem updOnly_foldAcc (ds : List Device) (A : List Accessory) :
    updOnly ds (foldAcc ds A) = foldAcc ds A := by
  induction ds generalizing A with
  | nil => rfl
  | cons d es ih =>
    simp only [foldAcc, updOnly, List.foldl_cons]
    rw [show es.foldl stepAcc (stepAcc A d) = foldAcc es (stepAcc A d) from rfl]
    rw [show es.foldl (fun accs2 e => updateFirst accs2 (uuidOf e) e)
      (updateFirst (foldAcc es (stepAcc A d)) (uuidOf d) d) =
      updOnly es (updateFirst (foldAcc es (stepAcc A d)) (uuidOf d) d) from rfl]
    by_cases hmem : uuidOf d ∈ es.map uuidOf
    · rw [updOnly_updateFirst_mem es _ _ d hmem]
      exact ih (stepAcc A d)
    · have hfix : updateFirst (stepAcc A d) (uuidOf d) d = stepAcc A d := by
        unfold stepAcc
        cases hA : anyUuid A (uuidOf d) with
        | true =>
          simp only [if_true]
          exact updateFirst_updateFirst A (uuidOf d) d d
        | false =>
          simp only [Bool.false_eq_true, if_false]
          exact updateFirst_append_self A (uuidOf d) d hA
      rw [← foldAcc_updateFirst_not_mem es (stepAcc A d) (uuidOf d) d hmem]
      rw [hfix]
      exact ih (stepAcc A d)

theorem anyUuid_append (A B : List Accessory) (v : String) :
    anyUuid (A ++ B) v = (anyUuid A v || anyUuid B v) := by
  simp [anyUuid, List.any_append]

theorem anyUuid_stepAcc_self (A : List Accessory) (d : Device) :
    anyUuid (stepAcc A d) (uuidOf d) = true := by
  unfold stepAcc
  cases hA : anyUuid A (uuidOf d) with
  | true =>
    simp only [if_true]
    rw [anyUuid_updateFirst]
    exact hA
  | false =>
    simp only [Bool.false_eq_true, if_false]
    rw [anyUuid_append]
    simp [anyUuid]

theorem anyUuid_stepAcc_mono (A : List Accessory) (d : Device) (v : String)
    (h : anyUuid A v = true) : anyUuid (stepAcc A d) v = true := by
  unfold stepAcc
  cases hA : anyUuid A (uuidOf d) with
  | true =>
    simp only [if_true]
    rw [anyUuid_updateFirst]
    exact h
  | false =>
    simp only [Bool.false_eq_true, if_false]
    rw [anyUuid_append, h]
    rfl

theorem anyUuid_foldAcc_mono (ds : List Device) (A : List Accessory)
    (v : String) (h : anyUuid A v = true) :
    anyUuid (foldAcc ds A) v = true := by
  induction ds generalizing A with
  | nil => exact h
  | cons d es ih =>
    simp only [foldAcc, List.foldl_cons]
    exact ih (stepAcc A d) (anyUuid_stepAcc_mono A d v h)

theorem anyUuid_foldAcc_mem (ds : List Device) (A : List Accessory) :
    ∀ d ∈ ds, anyUuid (foldAcc ds A) (uuidOf d) = true := by
  induction ds generalizing A with
  | nil => intro d hd; simp at hd
  | cons e es ih =>
    intro d hd
    rcases List.mem_cons.mp hd with hd | hd
    · subst hd
      simp only [foldAcc, List.foldl_cons]
      exact anyUuid_foldAcc_mono es (stepAcc A d) (uuidOf d)
        (anyUuid_stepAcc_self A d)
    · simp only [foldAcc, List.foldl_cons]
      exact ih (stepAcc A e) d hd

theorem foldDisc_accessories (ds : List Device) (s : DiscoverState) :
    (ds.foldl processDevice s).accessories = foldAcc ds s.accessories := by
  induction ds generalizing s with
  | nil => rfl
  | cons d es ih =>
    simp only [List.foldl_cons, foldAcc]
    rw [ih (processDevice s d)]
    have : (processDevice s d).accessories = stepAcc s.accessories d := by
      simp only [uuidOf] at *
      cases hA : anyUuid s.accessories (generateUUID d.info.mac) with
      | true => simp [processDevice, stepAcc, uuidOf, hA]
      | false => simp [processDevice, stepAcc, uuidOf, hA]
    rw [this]
    rfl

theorem foldDisc_discovered (ds : List Device) (s : DiscoverState) :
    (ds.foldl processDevice s).discovered = s.discovered ++ ds.map uuidOf := by
  induction ds generalizing s with
  | nil => simp
  | cons d es ih =>
    simp only [List.foldl_cons, List.map_cons]
    rw [ih (processDevice s d)]
    have : (processDevice s d).discovered = s.discovered ++ [uuidOf d] := by
      unfold processDevice
      cases hA : anyUuid s.accessories (generateUUID d.info.mac) with
      | true => simp [hA, uuidOf]
      | false => simp [hA, uuidOf]
    rw [this, List.append_assoc]
    rfl

theorem foldDisc_all_existing (ds : List Device) (s : DiscoverState)
    (h : ∀ d ∈ ds, anyUuid s.accessories (uuidOf d) = true) :
    ds.foldl processDevice s =
      ⟨updOnly ds s.accessories, s.registered,
        s.discovered ++ ds.map uuidOf⟩ := by
  induction ds generalizing s with
  | nil => simp [updOnly]
  | cons d es ih =>
    have hd : anyUuid s.accessories (uuidOf d) = true :=
      h d (List.mem_cons_self d es)
    have hpd : processDevice s d =
        ⟨updateFirst s.accessories (uuidOf d) d, s.registered,
          s.discovered ++ [uuidOf d]⟩ := by
      unfold processDevice
      simp only [show generateUUID d.info.mac = uuidOf d from rfl, hd, if_true]
    have hes : ∀ e ∈ es,
        anyUuid (processDevice s d).accessories (uuidOf e) = true := by
      intro e he
      rw [hpd]
      simp only
      rw [anyUuid_updateFirst]
      exact h e (List.mem_cons_of_mem d he)
    simp only [List.foldl_cons]
    rw [ih (processDevice s d) hes, hpd]
    simp [updOnly, List.foldl_cons, List.append_assoc]

theorem unregisterPass_eq_filter (A : List Accessory) (D R : List String) :
    unregisterPass A D R = R.filter (keepPred A D) := by
  induction A generalizing R with
  | nil =>
    show R = R.filter (keepPred [] D)
    have : keepPred [] D = fun _ => true := by
      funext u
      rfl
    rw [this, List.filter_true]
  | cons a A ih =>
    simp only [unregisterPass, List.foldl_cons] at *
    cases hc : D.contains a.uuid with
    | true =>
      simp only [if_true]
      rw [ih R]
      have hmem2 : a.uuid ∈ D := by
        simpa using hc
      have : keepPred (a :: A) D = keepPred A D := by
        funext u
        simp [keepPred, List.all_cons, hmem2]
      rw [this]
    | false =>
      simp only [Bool.false_eq_true, if_false]
      rw [ih (R.filter (fun u => u != a.uuid))]
      rw [List.filter_filter]
      have : (fun u => keepPred A D u && (u != a.uuid)) =
          keepPred (a :: A) D := by
        funext u
        simp only [keepPred, List.all_cons, hc, Bool.false_or]
        exact Bool.and_comm _ _
      rw [this]

theorem unregisterPass_idem (A : List Accessory) (D R : List String) :
    unregisterPass A D (unregisterPass A D R) = unregisterPass A D R := by
  simp only [unregisterPass_eq_filter, List.filter_filter]
  exact List.filter_congr (fun x _ => Bool.and_self _)

/-! ## Lemmas about the classifier -/

theorem entryMatches_eq_spec (r : DeviceData) (isUnder : Bool)
    (p : DeviceDataKey × Rat) :
    entryMatches r isUnder p =
      ((dataVal r p.1).isSome &&
        (if isUnder then decide ((dataVal r p.1).getD 0 < p.2)
         else decide (p.2 < (dataVal r p.1).getD 0))) := by
  cases h : dataVal r p.1 <;> cases isUnder <;> simp [entryMatches, h]

theorem conditionMatches_under_eq (r : DeviceData)
    (c : List (DeviceDataKey × Rat)) :
    conditionMatches r (.under c) = specRuleMatches r true c := by
  unfold conditionMatches specRuleMatches
  exact congrArg c.all (funext fun p => entryMatches_eq_spec r true p)

theorem conditionMatches_over_eq (r : DeviceData)
    (c : List (DeviceDataKey × Rat)) :
    conditionMatches r (.over c) = specRuleMatches r false c := by
  unfold conditionMatches specRuleMatches
  exact congrArg c.all (funext fun p => entryMatches_eq_spec r false p)

end Qingping

/-! ## Claim theorems -/

namespace Qingping

/-- Claim C1: the claim states that a device-update call strictly before
`refreshDeadline = issuedAt + expiresInSeconds * 0.99` uses the cached
credential with no token request, and a call at/after the deadline triggers
a refresh.  The source's guard is inverted: with a credential issued at 0 ms
with a 7200-second lifetime, at 1000 ms (well before the deadline) the code
does refresh, and at 8000000 ms (after the deadline, token expired) it does
not refresh. -/
theorem updateDevices_refresh_condition_inverted :
    (1000 : Int) < refreshDeadlineSpec 0 7200 ∧
    shouldRefreshToken
      { accessUpdatedAt := 0,
        access := some { access_token := "t", expires_in := 7200 },
        devices := [] } 1000 = true ∧
    refreshDeadlineSpec 0 7200 ≤ 8000000 ∧
    shouldRefreshToken
      { accessUpdatedAt := 0,
        access := some { access_token := "t", expires_in := 7200 },
        devices := [] } 8000000 = false := by
  refine ⟨by norm_num [refreshDeadlineSpec], by decide,
    by norm_num [refreshDeadlineSpec], by decide⟩

/-- Claim C2: `updateDevices` replaces the cached device set with the body's
`devices` field, in one whole-value swap, exactly when that field is a list
(possibly empty); any body whose `devices` field is not a list leaves the
prior cache untouched. -/
theorem updateDevices_cache_swap_iff_list :
    (∀ prev ds : List Device,
      updateDevicesCache prev { devices := .arr ds } = ds) ∧
    (∀ prev : List Device,
      updateDevicesCache prev { devices := .notArr } = prev) :=
  ⟨fun _ _ => rfl, fun _ => rfl⟩

/-- Claim C3: the claim's `{A,B}` versus `{B,C}` example produces the
expected intents (register C, unregister A, rebind B), and the bridge's
registered set becomes `{B,C}`; but the persisted `this.accessories` array
keeps the removed accessory A as an orphan, and after A's device disappears
and then reappears in a later poll it is never re-registered, so the
accessory set does not equal the polled set. -/
theorem discoverDevices_leaves_orphan_record :
    (discoverDevicesRun
      { accessories := [⟨"aa", sampleDevice ("aa") []⟩,
          ⟨"bb", sampleDevice ("bb") []⟩],
        registered := ["aa", "bb"] }
      [sampleDevice ("bb") [(.co2, 700)], sampleDevice ("cc") []]) =
      { accessories := [⟨"aa", sampleDevice ("aa") []⟩,
          ⟨"bb", sampleDevice ("bb") [(.co2, 700)]⟩,
          ⟨"cc", sampleDevice ("cc") []⟩],
        registered := ["bb", "cc"] } ∧
    (discoverDevicesRun (discoverDevicesRun
      { accessories := [⟨"aa", sampleDevice ("aa") []⟩],
        registered := ["aa"] }
      []) [sampleDevice ("aa") []]).registered = [] := by
  constructor
  · decide
  · decide

/-- Claim C4: `getAirQuality` equals the reference classifier written from
the spec's rule table (ordered strict-threshold rules, all kinds present,
first match wins, Unknown default), and the claim's concrete evaluations
hold: `{pm25 10, tvoc 50, co2 900}` is Excellent, `{pm25 35, tvoc 50,
co2 900}` is not Good, `{pm25 200, tvoc 2500, co2 2500}` is Poor, and the
empty reading map is Unknown. -/
theorem getAirQuality_matches_reference :
    (∀ r : DeviceData, getAirQuality r = classifySpec r) ∧
    getAirQuality [(.pm25, 10), (.tvoc, 50), (.co2, 900)] = .excellent ∧
    getAirQuality [(.pm25, 35), (.tvoc, 50), (.co2, 900)] ≠ .good ∧
    getAirQuality [(.pm25, 200), (.tvoc, 2500), (.co2, 2500)] = .poor ∧
    getAirQuality [] = .unknown := by
  refine ⟨?_, by decide, by decide, by decide, by decide⟩
  intro r
  unfold getAirQuality classifySpec airQualityLevels
  simp only [List.find?_cons, conditionMatches_under_eq, conditionMatches_over_eq]
  cases h1 : specRuleMatches r true [(.pm25, 12), (.tvoc, 65), (.co2, 1000)] <;>
  cases h2 : specRuleMatches r true [(.pm25, 35), (.tvoc, 220), (.co2, 1250)] <;>
  cases h3 : specRuleMatches r true [(.pm25, 55), (.tvoc, 660), (.co2, 1500)] <;>
  cases h4 : specRuleMatches r true [(.pm25, 150), (.tvoc, 2000), (.co2, 2000)] <;>
  cases h5 : specRuleMatches r false [(.pm25, 150), (.tvoc, 2000), (.co2, 2000)] <;>
  simp [h1, h2, h3, h4, h5, List.find?]

/-- Claim C5 (counterexample): with one registered accessory (mac aa), an
empty device cache and a failed device-update call, the sync cycle does not
leave the accessory set unchanged: the accessory is unregistered, so the
claim's "the cycle aborts with no change to the accessory set" is false at
this input. -/
theorem syncCycle_failure_changes_accessories :
    (syncCycle
      { accessories := [⟨"aa", sampleDevice ("aa") []⟩],
        registered := ["aa"] } [] none).1.registered = [] ∧
    ({ accessories := [⟨"aa", sampleDevice ("aa") []⟩],
        registered := ["aa"] } : PlatformState).registered = ["aa"] := by
  constructor
  · decide
  · decide

/-- Claim C5 (amended): when the device-update call fails, the error is
caught at the reconciler boundary and the device cache is left intact, but
the cycle does not abort: reconciliation proceeds against the previously
cached device list (and may therefore change the accessory set). -/
theorem syncCycle_failure_reconciles_prior_cache :
    ∀ (st : PlatformState) (cache : List Device),
      (syncCycle st cache none).2 = cache ∧
      (syncCycle st cache none).1 = discoverDevicesRun st cache :=
  fun _ _ => ⟨rfl, rfl⟩

/-- Claim C6: reconciliation is idempotent: running `discoverDevices` a
second time over an identical device-list payload leaves the whole platform
state (accessory array and bridge-registered set) exactly as the first run
left it, so the second run adds nothing and removes nothing. -/
theorem discoverDevicesRun_idempotent :
    ∀ (st : PlatformState) (p : List Device),
      discoverDevicesRun (discoverDevicesRun st p) p = discoverDevicesRun st p := by
  intro st p
  unfold discoverDevicesRun
  simp only []
  set ds := p.filter supportedProduct with hds
  set s1 : DiscoverState := ds.foldl processDevice
    ⟨st.accessories, st.registered, ([] : List String)⟩ with hs1
  have hacc1 : s1.accessories = foldAcc ds st.accessories := by
    rw [hs1, foldDisc_accessories]
  have hdisc1 : s1.discovered = ds.map uuidOf := by
    rw [hs1, foldDisc_discovered]
    simp
  have hmem : ∀ d ∈ ds, anyUuid s1.accessories (uuidOf d) = true := by
    intro d hd
    rw [hacc1]
    exact anyUuid_foldAcc_mem ds st.accessories d hd
  have hs2 : ds.foldl processDevice
      ⟨s1.accessories, unregisterPass s1.accessories s1.discovered s1.registered,
        ([] : List String)⟩ =
      ⟨updOnly ds s1.accessories,
        unregisterPass s1.accessories s1.discovered s1.registered,
        ds.map uuidOf⟩ := by
    rw [foldDisc_all_existing ds _ (by intro d hd; exact hmem d hd)]
    simp
  rw [hs2]
  have hupd : updOnly ds s1.accessories = s1.accessories := by
    rw [hacc1]
    exact updOnly_foldAcc ds st.accessories
  simp only [hupd]
  rw [← hdisc1]
  rw [unregisterPass_idem]

/-- Claim C7: a capability value read fails with the missing-reading error
exactly when the reading kind is absent from the readings or its value is
falsy (exactly 0); in particular a stored value of exactly 0 is reported as
an error, never returned as the value 0. -/
theorem onCharacteristicGetValue_error_iff :
    (∀ (data : DeviceData) (k : DeviceDataKey),
      onCharacteristicGetValue data k = .error .missing ↔
        dataVal data k = none ∨ dataVal data k = some 0) ∧
    onCharacteristicGetValue [(.co2, 0)] .co2 = .error .missing := by
  constructor
  · intro data k
    unfold onCharacteristicGetValue
    cases h : dataVal data k with
    | none => simp
    | some v =>
      by_cases hv : v = 0 <;> simp [hv]
  · rfl

/-- Claim C8: with `tvocUnit` set to the string ppb the resolved VOC density
is the raw value times 3.19 (raw 100 resolves to 319); with any other
setting (absent or a different string) the raw value is returned
unchanged. -/
theorem resolveVocDensity_ppb_conversion :
    (∀ v : Rat, resolveVocDensity (some ("ppb")) v = v * 3.19) ∧
    resolveVocDensity (some ("ppb")) 100 = 319 ∧
    (∀ v : Rat, resolveVocDensity none v = v) ∧
    (∀ s v, s ≠ "ppb" → resolveVocDensity (some s) v = v) := by
  refine ⟨fun v => rfl, by norm_num [resolveVocDensity], fun v => rfl, ?_⟩
  intro s v hs
  unfold resolveVocDensity
  simp [hs]

/-- Claim C9: the battery status read returns Low for every battery reading
at or below 20 and Normal for every reading strictly above 20; the boundary
value 20 is Low. -/
theorem batteryStatusRead_threshold :
    (∀ b : Rat, b ≤ 20 → batteryStatusRead b = .low) ∧
    (∀ b : Rat, 20 < b → batteryStatusRead b = .normal) ∧
    batteryStatusRead 20 = .low := by
  refine ⟨?_, ?_, by decide⟩
  · intro b hb
    unfold batteryStatusRead
    simp [not_lt.mpr hb]
  · intro b hb
    unfold batteryStatusRead
    simp [hb]

/-- Claim C10: the carbon-dioxide-detected read reports abnormal exactly for
co2 values strictly greater than 2000 and normal otherwise; the boundary
value 2000 is Normal. -/
theorem carbonDioxideDetected_threshold :
    (∀ c : Rat, 2000 < c → carbonDioxideDetectedRead c = .abnormal) ∧
    (∀ c : Rat, c ≤ 2000 → carbonDioxideDetectedRead c = .normal) ∧
    carbonDioxideDetectedRead 2000 = .normal := by
  refine ⟨?_, ?_, by decide⟩
  · intro c hc
    unfold carbonDioxideDetectedRead
    simp [hc]
  · intro c hc
    unfold carbonDioxideDetectedRead
    simp [not_lt.mpr hc]

end Qingping
